import Mathlib

/-!
Verification of the caching and query-normalization layer of the
Bulgarian-Waters-Service repository (a GraphQL API over Wikidata's SPARQL
endpoint).

The development shallowly embeds the JavaScript sources:
* `src/cache/cacheManager.js` (the TTL cache store and the query fingerprint),
* `src/utils/sparqlClient.js` (query builder, result normalizer and
  retrieval orchestrator; the copy embedded here is the current one, the one
  that filters capacity through property `P2234`).

Modelling conventions:
* JavaScript numbers are modelled as `Option ℚ` (`none` plays the role of
  `NaN`); machine time (`Date.now()`) is an explicit `Int` parameter.
* A `Map` keyed by strings is modelled as an association list
  `List (String × CacheEntry)`; `Map.set` replaces in place, `Map.delete`
  removes the entry for a key (keys are unique in every state reachable
  through `set`, so removal is rendered as a filter).
* `async` functions suspend only at the transport boundary; the transport is
  an explicit function `String → Except String SparqlResult`, and fallible
  code returns `Except`.  A run of an orchestrator operation is evaluated at
  a fixed instant `now`.
* String hashing iterates over Unicode scalar values (JavaScript's
  `charCodeAt` iterates UTF-16 code units; the two agree on all strings of
  characters below U+10000, which covers every string built by this code).
-/

/-! ## JavaScript number model -/

/-- A JavaScript number as used by this code base: either a rational value or
`NaN` (`none`).  (`±Infinity` never arises in the modelled code paths.) -/
abbrev JSNum := Option ℚ

/-- JavaScript truthiness of a number: `NaN`, `0` and `-0` are falsy. -/
def jsNumTruthy : JSNum → Bool
  | none => false
  | some q => q != 0

/-- Digit list to natural number, most significant first. -/
def digitsVal (l : List Char) : Nat :=
  l.foldl (fun acc c => 10 * acc + (c.toNat - '0'.toNat)) 0

/-- Exponent part of a decimal literal: optional sign then digits; an empty
digit sequence contributes exponent `0` (the longest valid prefix of the
mantissa alone is then used, as `parseFloat` does). -/
def parseExpPart (l : List Char) : Int :=
  let (sign, rest) : Int × List Char :=
    match l with
    | '-' :: r => (-1, r)
    | '+' :: r => (1, r)
    | _ => (1, l)
  let ds := rest.takeWhile Char.isDigit
  if ds.isEmpty then 0 else sign * (digitsVal ds : Int)

/-- Model of the JavaScript builtin `parseFloat`: skip leading whitespace,
read an optional sign, integer digits, an optional fraction and an optional
exponent; if no digit is found the result is `NaN` (`none`).  (The literal
`Infinity`, which `parseFloat` also accepts, is outside the rational value
space and never occurs in the data handled by this service.) -/
def parseFloat (s : String) : JSNum :=
  let l := s.data.dropWhile Char.isWhitespace
  let (sign, l) : Int × List Char :=
    match l with
    | '-' :: r => (-1, r)
    | '+' :: r => (1, r)
    | _ => (1, l)
  let intDs := l.takeWhile Char.isDigit
  let l₁ := l.dropWhile Char.isDigit
  let (fracDs, l₂) : List Char × List Char :=
    match l₁ with
    | '.' :: r => (r.takeWhile Char.isDigit, r.dropWhile Char.isDigit)
    | _ => ([], l₁)
  if intDs.isEmpty ∧ fracDs.isEmpty then none
  else
    let mantissa : Int := sign * (digitsVal (intDs ++ fracDs) : Int)
    let e : Int :=
      match l₂ with
      | c :: r => if c = 'e' ∨ c = 'E' then parseExpPart r else 0
      | [] => 0
    -- the parsed value is mantissa · 10 ^ (e − |fracDs|), built as an exact
    -- rational through `mkRat` (integer arithmetic only)
    let scale : Int := e - (fracDs.length : Int)
    if 0 ≤ scale then some (mkRat (mantissa * ((10 : Nat) ^ scale.toNat : Nat)) 1)
    else some (mkRat mantissa ((10 : Nat) ^ (-scale).toNat))

/-! ## String helpers -/

/-- `String.prototype.toLowerCase`, restricted to the ASCII range that the
type labels handled by this service use. -/
def jsToLower (s : String) : String := String.mk (s.data.map Char.toLower)

/-- `String.prototype.includes sub`: `sub` occurs contiguously in `s`. -/
def jsIncludes (s sub : String) : Bool :=
  s.data.tails.any fun t => sub.data.isPrefixOf t

/-- The pattern `pat` occurs contiguously in `s` (propositional form). -/
def strContains (s pat : String) : Prop := pat.data <:+: s.data

instance (s pat : String) : Decidable (strContains s pat) :=
  List.decidableInfix pat.data s.data

/-- Executable form of list containment, used to evaluate `strContains` on
concrete query texts without deep instance recursion. -/
def listInfixB (pat : List Char) : List Char → Bool
  | [] => pat.isEmpty
  | c :: cs => pat.isPrefixOf (c :: cs) || listInfixB pat cs

/-- `value.split('/').pop()`: the final `/`-separated segment. -/
def lastPathSegment (s : String) : String := (s.splitOn "/").getLastD ""

/-! ## TTL cache store (`src/cache/cacheManager.js`) -/

/-- A water-feature category (the GraphQL `WaterFeatureType` enum). -/
inductive WFType
  | LAKE
  | DAM
  | RESERVOIR
  | RIVER
deriving DecidableEq, Repr

/-- Coordinates of a normalized record. -/
structure Coordinates where
  latitude : ℚ
  longitude : ℚ
deriving DecidableEq, Repr

/-- The canonical entity record produced by `transformResults`.  Numeric
fields are `Option JSNum`: the outer `Option` is the `null` produced when the
raw field is missing, the inner one distinguishes `NaN`. -/
structure WaterFeature where
  id : String
  name : String
  type : WFType
  location : Option Coordinates
  locatedIn : Option String
  width : Option JSNum
  length : Option JSNum
  surfaceArea : Option JSNum
  capacity : Option JSNum
  inceptionDate : Option String
  wikidataUrl : String
  description : Option String
deriving DecidableEq, Repr

/-- One raw SPARQL binding.  In the JSON each present field is an object
`{type, value}`; a field is modelled by the `Option` of its `value` string.
`item` is accessed unconditionally by the code, hence not optional. -/
structure RawBinding where
  item : String
  itemLabel : Option String := none
  typeLabel : Option String := none
  coord : Option String := none
  locatedInLabel : Option String := none
  width : Option String := none
  length : Option String := none
  surfaceArea : Option String := none
  capacity : Option String := none
  inception : Option String := none
  description : Option String := none
deriving DecidableEq, Repr

/-- The `results` member of a raw result set (`bindings` may be missing). -/
structure BindingsContainer where
  bindings : Option (List RawBinding)
deriving DecidableEq, Repr

/-- A raw SPARQL result set (the `results` member may be missing). -/
structure SparqlResult where
  results : Option BindingsContainer
deriving DecidableEq, Repr

/-- A value held by the cache store.  The client stores three kinds of data:
per-category lists (`ALL_*` keys), raw query results (fingerprint keys) and
single features (`FEATURE_*` keys). -/
inductive CacheVal
  | features (fs : List WaterFeature)
  | raw (r : SparqlResult)
  | feature (f : WaterFeature)
deriving DecidableEq, Repr

/-- A cache entry: `{ data, expiryTime }`. -/
structure CacheEntry where
  data : CacheVal
  expiryTime : Int
deriving DecidableEq, Repr

/-- The store of `CacheManager`: the `Map` as an association list. -/
abbrev Cache := List (String × CacheEntry)

namespace CacheManager

/-- `Map.prototype.get`/`has`: the entry stored under `k`, if any. -/
def findEntry (c : Cache) (k : String) : Option CacheEntry :=
  (c.find? fun p => p.1 == k).map fun p => p.2

/-- `Map.prototype.set`: replace the entry for `k` in place, else append. -/
def setPairs : Cache → String → CacheEntry → Cache
  | [], k, e => [(k, e)]
  | (k', e') :: rest, k, e =>
    if k' == k then (k, e) :: rest else (k', e') :: setPairs rest k e

/-- `Map.prototype.delete k`: remove the entry for `k` (keys are unique in
every reachable store, so this is the filter dropping the key). -/
def delPairs (c : Cache) (k : String) : Cache :=
  c.filter fun p => !(p.1 == k)

/-- `set(key, data, ttl)` evaluated at instant `now`:
stores `data` under `key` with `expiryTime = now + ttl`. -/
def set (c : Cache) (k : String) (data : CacheVal) (now ttl : Int) : Cache :=
  setPairs c k ⟨data, now + ttl⟩

/-- `get(key)` evaluated at instant `now`: absent keys and expired entries
yield `none` (an expired entry is lazily evicted); a live entry yields its
data.  Returns the observed value and the store after the call. -/
def get (c : Cache) (now : Int) (k : String) : Option CacheVal × Cache :=
  match findEntry c k with
  | none => (none, c)
  | some entry =>
    if now > entry.expiryTime then (none, delPairs c k) else (some entry.data, c)

/-- `cleanupExpiredEntries()` evaluated at instant `now`: delete every entry
whose expiry has passed. -/
def cleanupExpiredEntries (c : Cache) (now : Int) : Cache :=
  c.filter fun p => !(now > p.2.expiryTime)

/-- `clear()`. -/
def clear (_c : Cache) : Cache := []

/-- One step of `hashString`'s loop: `hash = ((hash << 5) - hash) + char;
hash = hash & hash` with JavaScript 32-bit semantics. -/
def toInt32 (n : Int) : Int :=
  let m := n % 4294967296
  if m ≥ 2147483648 then m - 4294967296 else m

/-- The loop of `hashString` over the remaining characters.  The new value of
the accumulator is forced to constructor form before the tail call (an
identity match), so that evaluating the hash of a concrete multi-kilobyte
query inside the kernel stays shallow. -/
def hashChars : List Char → Int → Int
  | [], h => h
  | c :: cs, h =>
    match toInt32 (toInt32 (h * 32) - h + (c.toNat : Int)) with
    | .ofNat m => hashChars cs (.ofNat m)
    | .negSucc m => hashChars cs (.negSucc m)

/-- `hashString(str)`: the simple 31-ish rolling hash, rendered in decimal. -/
def hashString (s : String) : String :=
  toString (hashChars s.data 0)

/-- `cacheQuery(queryString, data, ttl)`: store under the fingerprint key. -/
def cacheQuery (c : Cache) (q : String) (data : CacheVal) (now ttl : Int) : Cache :=
  set c (hashString q) data now ttl

/-- `getCachedQuery(queryString)`. -/
def getCachedQuery (c : Cache) (now : Int) (q : String) : Option CacheVal × Cache :=
  get c now (hashString q)

end CacheManager

/-! ## SPARQL client (`src/utils/sparqlClient.js`) -/

namespace SparqlClient

/-- `this.waterFeatureTypes`. -/
def waterFeatureTypes : List String := ["LAKE", "DAM", "RESERVOIR", "RIVER"]

/-- `this.queryLimit`. -/
def queryLimit : Int := 500

/-- The `typeMapping` table; an unknown key renders as JavaScript's
`undefined` does inside a template literal. -/
def typeMappingLookup : String → String
  | "LAKE" => "Q23397"
  | "DAM" => "Q12323"
  | "RESERVOIR" => "Q131681"
  | "RIVER" => "Q4022"
  | _ => "undefined"

/-- The `sortMapping` table (own keys only). -/
def sortMappingLookup : String → Option String
  | "name" => some "?name"
  | "surfaceArea" => some "?surfaceArea"
  | "capacity" => some "?capacity"
  | "width" => some "?width"
  | "length" => some "?length"
  | _ => none

/-- The argument object of `buildWaterFeaturesQuery`, with the source's
destructuring defaults.  The numeric lower bounds are modelled as integers
(`Option Int`; `none` is `null`/`undefined`): the GraphQL layer passes
floats, but every behaviour claimed about them is value-generic and integer
rendering coincides with JavaScript's. -/
structure QueryParams where
  type : Option String := none
  region : Option String := none
  minCapacity : Option Int := none
  minSurfaceArea : Option Int := none
  sortBy : String := "name"
  sortOrder : String := "ASC"
  limit : Int := queryLimit
  offset : Int := 0
deriving DecidableEq, Repr

/-- `defaultTypes`: `waterFeatureTypes.map(key => `wd:${typeMapping[key]}`).join(' ')`. -/
def defaultTypesStr : String :=
  String.intercalate " " (waterFeatureTypes.map fun key => "wd:" ++ typeMappingLookup key)

/-- The `typeFilter` fallback branch (union of all four categories). -/
def typeFilterElse : String :=
  "\n                VALUES ?typeId \x7b" ++ defaultTypesStr ++
    "\x7d\n                ?item wdt:P31/wdt:P279* ?typeId.\n            "

/-- The `typeFilter` clause: `type && waterFeatureTypes.includes(type)`
selects the single-category branch (the empty string is falsy, and is also
not a member of the list, so the two guards coincide on `Option String`). -/
def typeFilterStr (p : QueryParams) : String :=
  match p.type with
  | some t =>
    if waterFeatureTypes.contains t then
      "?item wdt:P31/wdt:P279* wd:" ++ typeMappingLookup t ++ "."
    else typeFilterElse
  | none => typeFilterElse

/-- The `regionFilter` clause; `if (region)` is false for `null` and `""`. -/
def regionFilterStr (p : QueryParams) : String :=
  match p.region with
  | some region =>
    if region == "" then ""
    else
      "\n                ?item wdt:P131/wdt:P131* ?region.\n                " ++
        "?region rdfs:label ?regionLabel.\n                " ++
        "FILTER(CONTAINS(LCASE(?regionLabel), LCASE(\"" ++ region ++ "\"))).\n            "
  | none => ""

/-- The two-line core of the capacity filter: the (non-OPTIONAL) existence
constraint on `wdt:P2234` followed by the lower-bound `FILTER`. -/
def capacityClause (minCapacity : Int) : String :=
  "?item wdt:P2234 ?capacity.\n                FILTER(?capacity >= " ++
    toString minCapacity ++ ")."

/-- The two-line core of the surface-area filter (`wdt:P2046`). -/
def surfaceAreaClause (minSurfaceArea : Int) : String :=
  "?item wdt:P2046 ?surfaceArea.\n                FILTER(?surfaceArea >= " ++
    toString minSurfaceArea ++ ")."

/-- The `capacityFilter` string; `if (minCapacity)` is false for `null`, `0`
(and `NaN`, which the integer model cannot represent). -/
def capacityFilterStr (p : QueryParams) : String :=
  match p.minCapacity with
  | some minCapacity =>
    if minCapacity = 0 then ""
    else "\n                " ++ capacityClause minCapacity ++ "\n            "
  | none => ""

/-- The `surfaceAreaFilter` string, same truthiness guard. -/
def surfaceAreaFilterStr (p : QueryParams) : String :=
  match p.minSurfaceArea with
  | some minSurfaceArea =>
    if minSurfaceArea = 0 then ""
    else "\n                " ++ surfaceAreaClause minSurfaceArea ++ "\n            "
  | none => ""

/-- `sortMapping[sortBy] || sortMapping.name` (lookup restricted to the
table's own keys; inherited `Object.prototype` members are not modelled). -/
def sortFieldStr (p : QueryParams) : String :=
  (sortMappingLookup p.sortBy).getD "?name"

/-- Constant head of the query template, up to the `typeFilter` hole. -/
def qHead : String :=
  "\n            SELECT DISTINCT ?itemLabel (SAMPLE(?item) AS ?item) (SAMPLE(?typeId) AS ?typeId) \n                            (SAMPLE(?typeLabel) AS ?typeLabel) (SAMPLE(?coord) AS ?coord) \n                            (SAMPLE(?locatedInLabel) AS ?locatedInLabel) (SAMPLE(?width) AS ?width) \n                            (SAMPLE(?length) AS ?length) (SAMPLE(?surfaceArea) AS ?surfaceArea) \n                            (SAMPLE(?capacity) AS ?capacity) (SAMPLE(?inception) AS ?inception) \n                            (SAMPLE(?description) AS ?description)\n            WHERE \x7b\n                # Bulgaria constraint\n                ?item wdt:P17 wd:Q219. # located in Bulgaria\n                \n                # Type constraint\n                "

/-- Constant middle of the query template, between the `typeFilter` and
`regionFilter` holes. -/
def qMid : String :=
  "\n                \n                # Get the specific type\n                ?item wdt:P31 ?typeId.\n                ?typeId rdfs:label ?typeLabel.\n                FILTER(LANG(?typeLabel) = \"en\")\n                \n                # Name\n                ?item rdfs:label ?itemLabel.\n                FILTER(LANG(?itemLabel) = \"en\")\n                \n                # Coordinates\n                OPTIONAL \x7b ?item wdt:P625 ?coord. \x7d\n                \n                # Location\n                OPTIONAL \x7b \n                    ?item wdt:P131 ?locatedIn. \n                    ?locatedIn rdfs:label ?locatedInLabel.\n                    FILTER(LANG(?locatedInLabel) = \"en\")\n                \x7d\n\n                # Vertical depth\n                OPTIONAL \x7b ?item wdt:P4511 ?depth. \x7d\n                \n                # Length\n                OPTIONAL \x7b ?item wdt:P2043 ?length. \x7d\n\n                # Width\n                OPTIONAL \x7b ?item wdt:P2049 ?width. \x7d\n                \n                # Surface area\n                OPTIONAL \x7b ?item wdt:P2046 ?surfaceArea. \x7d\n                \n                # Capacity\n                OPTIONAL \x7b ?item wdt:P2234 ?capacity. \x7d\n                \n                # Inception date\n                OPTIONAL \x7b ?item wdt:P571 ?inception. \x7d\n                \n                # Description\n                OPTIONAL \x7b\n                    ?item schema:description ?description.\n                    FILTER(LANG(?description) = \"en\")\n                \x7d\n                \n                "

/-- Constant tail of the query template, after the `surfaceAreaFilter` hole
and up to the sort-direction hole. -/
def qTail : String :=
  "\n            \x7d\n            GROUP BY ?itemLabel\n            ORDER BY "

/-- `buildWaterFeaturesQuery(params)`: the query template with the computed
clauses interpolated. -/
def buildWaterFeaturesQuery (p : QueryParams) : String :=
  qHead ++ typeFilterStr p ++ qMid ++ regionFilterStr p ++
    "\n                " ++ capacityFilterStr p ++
    "\n                " ++ surfaceAreaFilterStr p ++
    qTail ++ (if p.sortOrder == "DESC" then "DESC" else "ASC") ++
    "(" ++ sortFieldStr p ++ ")\n            LIMIT " ++ toString p.limit ++
    "\n            OFFSET " ++ toString p.offset ++ "\n        "

/-- Head of the by-id query template, up to the interpolated id. -/
def qByIdHead : String :=
  "\n        SELECT ?item ?itemLabel ?typeId ?typeLabel ?coord ?locatedInLabel \n                ?width ?length ?surfaceArea ?capacity ?inception ?description\n        WHERE \x7b\n            BIND(wd:"

/-- Tail of the by-id query template, after the interpolated id. -/
def qByIdTail : String :=
  " AS ?item)\n            \n            # Get the specific type\n            ?item wdt:P31 ?typeId.\n            ?typeId rdfs:label ?typeLabel.\n            FILTER(LANG(?typeLabel) = \"en\")\n            \n            # Name\n            ?item rdfs:label ?itemLabel.\n            FILTER(LANG(?itemLabel) = \"en\")\n            \n            # Coordinates\n            OPTIONAL \x7b ?item wdt:P625 ?coord. \x7d\n            \n            # Location\n            OPTIONAL \x7b \n            ?item wdt:P131 ?locatedIn. \n            ?locatedIn rdfs:label ?locatedInLabel.\n            FILTER(LANG(?locatedInLabel) = \"en\")\n            \x7d\n            \n            # width\n            OPTIONAL \x7b ?item wdt:P2048 ?width. \x7d\n            \n            # Length\n            OPTIONAL \x7b ?item wdt:P2043 ?length. \x7d\n            \n            # Surface area\n            OPTIONAL \x7b ?item wdt:P2046 ?surfaceArea. \x7d\n            \n            # Capacity\n            OPTIONAL \x7b ?item wdt:P2234 ?capacity. \x7d\n            \n            # Inception date\n            OPTIONAL \x7b ?item wdt:P571 ?inception. \x7d\n            \n            # Description\n            OPTIONAL \x7b\n            ?item schema:description ?description.\n            FILTER(LANG(?description) = \"en\")\n            \x7d\n        \x7d\n        LIMIT 1\n        "

/-- `buildWaterFeatureByIdQuery(id)`. -/
def buildWaterFeatureByIdQuery (id : String) : String :=
  qByIdHead ++ id ++ qByIdTail

/-- Deterministic reading of the regex `/Point\(([^ ]+) ([^)]+)\)/` at a
fixed start position: `l` is the text right after a literal `Point(`.  The
first group is the maximal nonempty run of non-space characters (which must
be followed by the literal space), the second the maximal nonempty run of
non-`)` characters (which must be followed by the literal `)`).  Because each
character class excludes its follower, greedy matching with backtracking
coincides with this first-delimiter reading. -/
def pointTryAt (l : List Char) : Option (String × String) :=
  let g1 := l.takeWhile fun c => c ≠ ' '
  let r1 := l.dropWhile fun c => c ≠ ' '
  if g1.isEmpty then none
  else
    match r1 with
    | ' ' :: r2 =>
      let g2 := r2.takeWhile fun c => c ≠ ')'
      let r3 := r2.dropWhile fun c => c ≠ ')'
      if g2.isEmpty then none
      else
        match r3 with
        | ')' :: _ => some (String.mk g1, String.mk g2)
        | _ => none
    | _ => none

/-- Unanchored search of the regex: try every occurrence of the literal
`Point(` from the left, keeping the first successful match. -/
def pointSearch : List Char → Option (String × String)
  | [] => none
  | c :: cs =>
    if "Point(".data.isPrefixOf (c :: cs) then
      match pointTryAt ((c :: cs).drop 6) with
      | some r => some r
      | none => pointSearch cs
    else pointSearch cs

/-- `coordValue.match(/Point\(([^ ]+) ([^)]+)\)/)`, reduced to its two
capture groups. -/
def jsPointMatch (s : String) : Option (String × String) :=
  pointSearch s.data

/-- The per-binding body of `transformResults`. -/
def transformBinding (binding : RawBinding) : WaterFeature :=
  let coords : JSNum × JSNum :=
    match binding.coord with
    | some coordValue =>
      match jsPointMatch coordValue with
      | some (g1, g2) => (parseFloat g1, parseFloat g2)
      | none => (none, none)
    | none => (none, none)
  let longitude := coords.1
  let latitude := coords.2
  let id := lastPathSegment binding.item
  let type : WFType :=
    match binding.typeLabel with
    | some tl =>
      let typeLabel := jsToLower tl
      if jsIncludes typeLabel "dam" then .DAM
      else if jsIncludes typeLabel "reservoir" then .RESERVOIR
      else if jsIncludes typeLabel "river" then .RIVER
      else if jsIncludes typeLabel "lake" then .LAKE
      else .LAKE
    | none => .LAKE
  { id := id
    name := binding.itemLabel.getD "Unknown"
    type := type
    -- `latitude && longitude ? { latitude, longitude } : null`:
    -- a missing parse (`NaN`) or a parsed value of `0` is falsy.
    location :=
      match latitude, longitude with
      | some la, some lo =>
        if la ≠ 0 ∧ lo ≠ 0 then some { latitude := la, longitude := lo } else none
      | _, _ => none
    locatedIn := binding.locatedInLabel
    width := binding.width.map parseFloat
    length := binding.length.map parseFloat
    surfaceArea := binding.surfaceArea.map parseFloat
    capacity := binding.capacity.map parseFloat
    inceptionDate := binding.inception
    wikidataUrl := "https://www.wikidata.org/wiki/" ++ id
    description := binding.description }

/-- `transformResults(results)`: a missing `results` or `bindings` member
yields `[]`; otherwise every binding is normalized. -/
def transformResults (results : SparqlResult) : List WaterFeature :=
  match results.results with
  | none => []
  | some container =>
    match container.bindings with
    | none => []
    | some bindings => bindings.map transformBinding

/-- `transformResults` applied to an arbitrary cached value, as happens when
`this.query` serves a cache hit: a cached array or single feature object has
no `results` member, so the guard of `transformResults` yields `[]`. -/
def transformResultsDyn : CacheVal → List WaterFeature
  | .raw r => transformResults r
  | _ => []

/-- `this.query(sparqlQuery)` evaluated at instant `now` against a transport
`transport` with default TTL `dttl`: serve the fingerprint cache when it
hits; otherwise invoke the transport, propagate its failure, or cache and
return the raw result.  The third component records whether the transport
was invoked. -/
def query (transport : String → Except String SparqlResult) (c : Cache)
    (now dttl : Int) (q : String) : Except String CacheVal × Cache × Bool :=
  match CacheManager.getCachedQuery c now q with
  | (some cachedResult, c') => (.ok cachedResult, c', false)
  | (none, c') =>
    match transport q with
    | .error e => (.error e, c', true)
    | .ok result =>
      (.ok (.raw result), CacheManager.cacheQuery c' q (.raw result) now dttl, true)

/-- One iteration of `preloadCache`'s loop: build the per-category query, run
it through the caching `query`, and on success store the normalized list
under `ALL_<type>` for 12 hours; a failure is caught and skipped. -/
def preloadStep (transport : String → Except String SparqlResult)
    (now dttl : Int) (c : Cache) (type : String) : Cache :=
  let q := buildWaterFeaturesQuery { type := some type, limit := queryLimit }
  match query transport c now dttl q with
  | (.ok results, c', _) =>
    CacheManager.set c' ("ALL_" ++ type) (.features (transformResultsDyn results))
      now 43200000
  | (.error _, c', _) => c'

/-- `preloadCache()`: preload all four categories in order; per-category
failures are isolated, so this always runs to completion and never fails. -/
def preloadCache (transport : String → Except String SparqlResult)
    (c : Cache) (now dttl : Int) : Cache :=
  waterFeatureTypes.foldl (preloadStep transport now dttl) c

/-- The cache-scanning loop of `getWaterFeatureById`: look for `id` in each
populated `ALL_<type>` collection, threading the store through the lazily
evicting `get` calls.  (A non-list value under an `ALL_*` key never occurs in
a reachable store; the scan skips it.) -/
def findInTypeCaches : List String → Cache → Int → String →
    Option WaterFeature × Cache
  | [], c, _, _ => (none, c)
  | type :: rest, c, now, id =>
    match CacheManager.get c now ("ALL_" ++ type) with
    | (some (.features features), c') =>
      match features.find? (fun f => f.id == id) with
      | some feature => (some feature, c')
      | none => findInTypeCaches rest c' now id
    | (_, c') => findInTypeCaches rest c' now id

/-- `getWaterFeatureById(id)` evaluated at instant `now`: serve a record
found in any per-category cache without touching the transport; otherwise
run the single-entity query (through the fingerprint cache), and if a record
comes back, cache it under `FEATURE_<id>` with the default TTL.  The third
component records whether the transport was invoked. -/
def getWaterFeatureById (transport : String → Except String SparqlResult)
    (c : Cache) (now dttl : Int) (id : String) :
    Except String (Option WaterFeature) × Cache × Bool :=
  match findInTypeCaches waterFeatureTypes c now id with
  | (some feature, c') => (.ok (some feature), c', false)
  | (none, c') =>
    let sparqlQuery := buildWaterFeatureByIdQuery id
    match query transport c' now dttl sparqlQuery with
    | (.error e, c'', called) => (.error e, c'', called)
    | (.ok results, c'', called) =>
      match transformResultsDyn results with
      | feature :: _ =>
        (.ok (some feature),
          CacheManager.set c'' ("FEATURE_" ++ id) (.feature feature) now dttl,
          called)
      | [] => (.ok none, c'', called)

/-- A store `c` observed at instant `now` holds, under `key`, a live
per-category list containing a feature with identifier `id`. -/
def typeCacheHit (c : Cache) (now : Int) (id key : String) : Prop :=
  ∃ e fs f, CacheManager.findEntry c key = some e ∧ ¬ now > e.expiryTime ∧
    e.data = CacheVal.features fs ∧ f ∈ fs ∧ f.id = id

/-- A store `c` observed at instant `now` yields no usable match for `id`
under `key`: the key is absent, or expired, or its list has no such record. -/
def typeCacheNoHit (c : Cache) (now : Int) (id key : String) : Prop :=
  ∀ e, CacheManager.findEntry c key = some e →
    now > e.expiryTime ∨ ∀ fs, e.data = CacheVal.features fs → ∀ f ∈ fs, f.id ≠ id

end SparqlClient

/-! ## Theorems: the TTL cache store -/

namespace CacheManager

theorem findEntry_nil (k : String) : findEntry [] k = none := rfl

theorem findEntry_cons_self (c : Cache) (k : String) (e : CacheEntry) :
    findEntry ((k, e) :: c) k = some e := by
  simp [findEntry]

theorem findEntry_cons_ne (c : Cache) (k₀ k : String) (e : CacheEntry)
    (h : k₀ ≠ k) : findEntry ((k₀, e) :: c) k = findEntry c k := by
  simp [findEntry, List.find?_cons_of_neg, h]

theorem findEntry_setPairs_self (c : Cache) (k : String) (e : CacheEntry) :
    findEntry (setPairs c k e) k = some e := by
  induction c with
  | nil => simp [setPairs, findEntry]
  | cons hd tl ih =>
    obtain ⟨k₀, e₀⟩ := hd
    by_cases hk : k₀ = k
    · subst hk
      simp only [setPairs, beq_self_eq_true, if_pos]
      exact findEntry_cons_self tl _ e
    · simp only [setPairs, beq_iff_eq, if_neg hk]
      rw [findEntry_cons_ne _ _ _ _ hk]
      exact ih

theorem findEntry_setPairs_ne (c : Cache) (k k' : String) (e : CacheEntry)
    (h : k' ≠ k) : findEntry (setPairs c k e) k' = findEntry c k' := by
  induction c with
  | nil =>
    simp only [setPairs, findEntry_nil]
    exact findEntry_cons_ne [] k k' e (Ne.symm h)
  | cons hd tl ih =>
    obtain ⟨k₀, e₀⟩ := hd
    by_cases hk : k₀ = k
    · subst hk
      simp only [setPairs, beq_self_eq_true, if_pos]
      rw [findEntry_cons_ne _ _ _ _ (Ne.symm h), findEntry_cons_ne _ _ _ _ (Ne.symm h)]
    · simp only [setPairs, beq_iff_eq, if_neg hk]
      by_cases hk' : k₀ = k'
      · subst hk'
        rw [findEntry_cons_self, findEntry_cons_self]
      · rw [findEntry_cons_ne _ _ _ _ hk', findEntry_cons_ne _ _ _ _ hk']
        exact ih

theorem findEntry_delPairs_self (c : Cache) (k : String) :
    findEntry (delPairs c k) k = none := by
  simp only [findEntry, delPairs, Option.map_eq_none']
  rw [List.find?_eq_none]
  intro p hp
  have := (List.mem_filter.mp hp).2
  simpa using this

theorem findEntry_delPairs_ne (c : Cache) (k k' : String) (h : k' ≠ k) :
    findEntry (delPairs c k) k' = findEntry c k' := by
  induction c with
  | nil => rfl
  | cons hd tl ih =>
    obtain ⟨k₀, e₀⟩ := hd
    by_cases hk : k₀ = k
    · subst hk
      have : delPairs ((k₀, e₀) :: tl) k₀ = delPairs tl k₀ := by
        simp [delPairs]
      rw [this, ih, findEntry_cons_ne _ _ _ _ fun hh => h hh.symm]
    · have : delPairs ((k₀, e₀) :: tl) k = (k₀, e₀) :: delPairs tl k := by
        simp [delPairs, hk]
      rw [this]
      by_cases hk' : k₀ = k'
      · subst hk'
        rw [findEntry_cons_self, findEntry_cons_self]
      · rw [findEntry_cons_ne _ _ _ _ hk', findEntry_cons_ne _ _ _ _ hk']
        exact ih

theorem get_fst_eq (c : Cache) (now : Int) (k : String) :
    (get c now k).1 =
      match findEntry c k with
      | none => none
      | some e => if now > e.expiryTime then none else some e.data := by
  unfold get
  cases findEntry c k with
  | none => rfl
  | some e =>
    by_cases h : now > e.expiryTime
    · simp [h]
    · simp [h]

theorem get_snd_frame (c : Cache) (now : Int) (k k' : String) (h : k' ≠ k) :
    findEntry ((get c now k).2) k' = findEntry c k' := by
  unfold get
  cases findEntry c k with
  | none => rfl
  | some e =>
    by_cases he : now > e.expiryTime
    · simpa [he] using findEntry_delPairs_ne c k k' h
    · simp [he]

theorem get_none_mono (c : Cache) (now : Int) (k k' : String)
    (h : findEntry c k' = none) : findEntry ((get c now k).2) k' = none := by
  unfold get
  cases hf : findEntry c k with
  | none => simpa using h
  | some e =>
    by_cases he : now > e.expiryTime
    · simp only [he, if_true]
      by_cases hk : k' = k
      · subst hk
        exact findEntry_delPairs_self c k'
      · rw [findEntry_delPairs_ne c k k' hk]
        exact h
    · simpa [he] using h

end CacheManager

/-- C1.  TTL cache get/set semantics: after `set(k, v, ttl)` completing at
time `T`, a `get(k)` at any `T' ≤ T + ttl` returns `v` (and leaves the store
unchanged), and a `get(k)` at any `T' > T + ttl` returns the absent
indicator (`none`, never a failure — `get` is a total function into
`Option`) and removes the entry for `k` from the store. -/
theorem cache_set_get_ttl_spec (c : Cache) (k : String) (v : CacheVal)
    (T ttl T' : Int) :
    (T' ≤ T + ttl →
      CacheManager.get (CacheManager.set c k v T ttl) T' k =
        (some v, CacheManager.set c k v T ttl)) ∧
    (T' > T + ttl →
      (CacheManager.get (CacheManager.set c k v T ttl) T' k).1 = none ∧
      CacheManager.findEntry
        ((CacheManager.get (CacheManager.set c k v T ttl) T' k).2) k = none) := by
  have hf : CacheManager.findEntry (CacheManager.set c k v T ttl) k =
      some ⟨v, T + ttl⟩ := CacheManager.findEntry_setPairs_self c k ⟨v, T + ttl⟩
  constructor
  · intro h
    have h2 : ¬ T' > T + ttl := not_lt.mpr h
    unfold CacheManager.get
    rw [hf]
    simp [h2]
  · intro h
    unfold CacheManager.get
    rw [hf]
    simp [h, CacheManager.findEntry_delPairs_self]

/-- Witness for C1 at a concrete instance: `set` at time 0 with ttl 100,
`get` at time 50 hits, `get` at time 150 misses and evicts. -/
theorem cache_set_get_ttl_spec_witness :
    (CacheManager.get (CacheManager.set [] "k" (.features []) 0 100) 50 "k" =
      (some (.features []), CacheManager.set [] "k" (.features []) 0 100)) ∧
    ((CacheManager.get (CacheManager.set [] "k" (.features []) 0 100) 150 "k").1 =
      none ∧
     CacheManager.findEntry
       ((CacheManager.get (CacheManager.set [] "k" (.features []) 0 100) 150 "k").2)
         "k" = none) :=
  ⟨(cache_set_get_ttl_spec [] "k" (.features []) 0 100 50).1 (by decide),
   (cache_set_get_ttl_spec [] "k" (.features []) 0 100 150).2 (by decide)⟩

/-- C5.  `cleanupExpiredEntries` removes exactly the entries whose expiry has
passed at call time: an entry (with its key, data and expiry unchanged)
survives iff it was in the store and is not expired; moreover the surviving
store is a sublist of the original (no entry is altered or reordered). -/
theorem cleanup_exact_frame (c : Cache) (now : Int) :
    (∀ p : String × CacheEntry,
      p ∈ CacheManager.cleanupExpiredEntries c now ↔
        p ∈ c ∧ now ≤ p.2.expiryTime) ∧
    List.Sublist (CacheManager.cleanupExpiredEntries c now) c := by
  constructor
  · intro p
    simp [CacheManager.cleanupExpiredEntries, List.mem_filter, not_lt]
  · exact List.filter_sublist c

/-- C6.  Fingerprint determinism: `hashString` is a pure function of its
input text (in this embedding it takes no state parameter at all), so equal
query texts always map to the same cache key; in particular structurally
identical filter specifications yield the same cache slot. -/
theorem hashString_deterministic :
    (∀ s₁ s₂ : String, s₁ = s₂ →
      CacheManager.hashString s₁ = CacheManager.hashString s₂) ∧
    (∀ p₁ p₂ : SparqlClient.QueryParams, p₁ = p₂ →
      CacheManager.hashString (SparqlClient.buildWaterFeaturesQuery p₁) =
        CacheManager.hashString (SparqlClient.buildWaterFeaturesQuery p₂)) :=
  ⟨fun _ _ h => by rw [h], fun _ _ h => by rw [h]⟩

/-- Witness for C6 at a concrete query text and a concrete filter
specification. -/
theorem hashString_deterministic_witness :
    CacheManager.hashString "SELECT ?item WHERE" =
      CacheManager.hashString "SELECT ?item WHERE" ∧
    CacheManager.hashString
        (SparqlClient.buildWaterFeaturesQuery { type := some "LAKE" }) =
      CacheManager.hashString
        (SparqlClient.buildWaterFeaturesQuery { type := some "LAKE" }) :=
  ⟨hashString_deterministic.1 _ _ rfl,
   hashString_deterministic.2 { type := some "LAKE" } { type := some "LAKE" } rfl⟩

/-! ## Theorems: the result normalizer -/

/-- C4.  Category inference, first-match-wins over the fixed order
dam → DAM, reservoir → RESERVOIR, river → RIVER, lake → LAKE, with LAKE as
the default both for an unmatched label and for a missing type label; the
match is case-insensitive substring containment. -/
theorem category_inference_spec (b : RawBinding) :
    (b.typeLabel = none →
      (SparqlClient.transformBinding b).type = WFType.LAKE) ∧
    (∀ l, b.typeLabel = some l →
      (jsIncludes (jsToLower l) "dam" = true →
        (SparqlClient.transformBinding b).type = WFType.DAM) ∧
      (jsIncludes (jsToLower l) "dam" = false →
        jsIncludes (jsToLower l) "reservoir" = true →
        (SparqlClient.transformBinding b).type = WFType.RESERVOIR) ∧
      (jsIncludes (jsToLower l) "dam" = false →
        jsIncludes (jsToLower l) "reservoir" = false →
        jsIncludes (jsToLower l) "river" = true →
        (SparqlClient.transformBinding b).type = WFType.RIVER) ∧
      (jsIncludes (jsToLower l) "dam" = false →
        jsIncludes (jsToLower l) "reservoir" = false →
        jsIncludes (jsToLower l) "river" = false →
        jsIncludes (jsToLower l) "lake" = true →
        (SparqlClient.transformBinding b).type = WFType.LAKE) ∧
      (jsIncludes (jsToLower l) "dam" = false →
        jsIncludes (jsToLower l) "reservoir" = false →
        jsIncludes (jsToLower l) "river" = false →
        jsIncludes (jsToLower l) "lake" = false →
        (SparqlClient.transformBinding b).type = WFType.LAKE)) := by
  constructor
  · intro h
    simp [SparqlClient.transformBinding, h]
  · intro l hl
    refine ⟨?_, ?_, ?_, ?_, ?_⟩
    · intro h1
      simp [SparqlClient.transformBinding, hl, h1]
    · intro h1 h2
      simp [SparqlClient.transformBinding, hl, h1, h2]
    · intro h1 h2 h3
      simp [SparqlClient.transformBinding, hl, h1, h2, h3]
    · intro h1 h2 h3 h4
      simp [SparqlClient.transformBinding, hl, h1, h2, h3, h4]
    · intro h1 h2 h3 h4
      simp [SparqlClient.transformBinding, hl, h1, h2, h3, h4]

/-- Witness for C4: "Reservoir Lake" resolves to RESERVOIR (first match
wins), "Artificial Dam" to DAM, an unrecognized label to LAKE. -/
theorem category_inference_spec_witness :
    (SparqlClient.transformBinding
      { item := "Q1", typeLabel := some "Reservoir Lake" }).type =
        WFType.RESERVOIR ∧
    (SparqlClient.transformBinding
      { item := "Q1", typeLabel := some "Artificial Dam" }).type = WFType.DAM ∧
    (SparqlClient.transformBinding
      { item := "Q1", typeLabel := some "Canal" }).type = WFType.LAKE :=
  ⟨((category_inference_spec _).2 "Reservoir Lake" rfl).2.1 (by decide) (by decide),
   ((category_inference_spec _).2 "Artificial Dam" rfl).1 (by decide),
   ((category_inference_spec _).2 "Canal" rfl).2.2.2.2 (by decide) (by decide)
     (by decide) (by decide)⟩

/-- C10.  Name defaulting: a binding without `itemLabel` normalizes to the
name `"Unknown"`, and one with a label keeps it; the `name` field of the
record type is total (never absent). -/
theorem name_default_spec (b : RawBinding) :
    (b.itemLabel = none → (SparqlClient.transformBinding b).name = "Unknown") ∧
    (∀ l, b.itemLabel = some l → (SparqlClient.transformBinding b).name = l) := by
  constructor
  · intro h
    simp [SparqlClient.transformBinding, h]
  · intro l hl
    simp [SparqlClient.transformBinding, hl]

/-- Witness for C10 at a binding lacking `itemLabel` and one carrying it. -/
theorem name_default_spec_witness :
    (SparqlClient.transformBinding { item := "Q1" }).name = "Unknown" ∧
    (SparqlClient.transformBinding
      { item := "Q1", itemLabel := some "Iskar" }).name = "Iskar" :=
  ⟨(name_default_spec { item := "Q1" }).1 rfl,
   (name_default_spec _).2 "Iskar" rfl⟩

/-- C9.  Normalizer totality on empty or malformed input: a missing
`results` member, a missing `bindings` member, or an empty row list all
normalize to `[]`; `transformResults` is a total function (no failure
signalling exists in its type). -/
theorem normalizer_total_empty_spec (r : SparqlResult) :
    (r.results = none → SparqlClient.transformResults r = []) ∧
    (∀ ctn, r.results = some ctn → ctn.bindings = none →
      SparqlClient.transformResults r = []) ∧
    (∀ ctn, r.results = some ctn → ctn.bindings = some [] →
      SparqlClient.transformResults r = []) := by
  refine ⟨?_, ?_, ?_⟩
  · intro h
    simp [SparqlClient.transformResults, h]
  · intro ctn h hb
    simp [SparqlClient.transformResults, h, hb]
  · intro ctn h hb
    simp [SparqlClient.transformResults, h, hb]

/-- Witness for C9 at the three degenerate result sets. -/
theorem normalizer_total_empty_spec_witness :
    SparqlClient.transformResults ⟨none⟩ = [] ∧
    SparqlClient.transformResults ⟨some ⟨none⟩⟩ = [] ∧
    SparqlClient.transformResults ⟨some ⟨some []⟩⟩ = [] :=
  ⟨(normalizer_total_empty_spec ⟨none⟩).1 rfl,
   (normalizer_total_empty_spec ⟨some ⟨none⟩⟩).2.1 ⟨none⟩ rfl rfl,
   (normalizer_total_empty_spec ⟨some ⟨some []⟩⟩).2.2 ⟨some []⟩ rfl rfl⟩

/-- C2 (counterexample).  A binding whose `coord` matches the pattern with a
parsed longitude of `0` — `"Point(0 42.1)"` — does NOT yield present
coordinates, contrary to the claim that the parsed pair is kept for any
parsed values including 0: `latitude && longitude` is falsy at `0`. -/
theorem coordinate_zero_counterexample :
    SparqlClient.jsPointMatch "Point(0 42.1)" = some ("0", "42.1") ∧
    parseFloat "0" = some 0 ∧
    parseFloat "42.1" = some (mkRat 421 10) ∧
    (SparqlClient.transformBinding
      { item := "http://www.wikidata.org/entity/Q1",
        coord := some "Point(0 42.1)" }).location = none := by
  refine ⟨?_, ?_, ?_, ?_⟩ <;> decide

/-- C2 (amended).  Coordinate normalization: when `coord` is present and
matches `Point(<lon> <lat>)`, the parsed pair is kept iff both parses
succeed and are nonzero (no bounds validation beyond that); a missing or
non-matching `coord`, a failed parse (`NaN`), or a parsed value of exactly
`0` all yield absent coordinates. -/
theorem coordinate_normalization_amended :
    (∀ (b : RawBinding) (cv g1 g2 : String) (lo la : ℚ),
      b.coord = some cv → SparqlClient.jsPointMatch cv = some (g1, g2) →
      parseFloat g1 = some lo → parseFloat g2 = some la →
      lo ≠ 0 → la ≠ 0 →
      (SparqlClient.transformBinding b).location =
        some { latitude := la, longitude := lo }) ∧
    (∀ b : RawBinding, b.coord = none →
      (SparqlClient.transformBinding b).location = none) ∧
    (∀ (b : RawBinding) (cv : String), b.coord = some cv →
      SparqlClient.jsPointMatch cv = none →
      (SparqlClient.transformBinding b).location = none) ∧
    (∀ (b : RawBinding) (cv g1 g2 : String), b.coord = some cv →
      SparqlClient.jsPointMatch cv = some (g1, g2) →
      (parseFloat g1 = some 0 ∨ parseFloat g2 = some 0 ∨
        parseFloat g1 = none ∨ parseFloat g2 = none) →
      (SparqlClient.transformBinding b).location = none) := by
  refine ⟨?_, ?_, ?_, ?_⟩
  · intro b cv g1 g2 lo la hc hm h1 h2 hlo hla
    simp [SparqlClient.transformBinding, hc, hm, h1, h2, hlo, hla]
  · intro b hc
    simp [SparqlClient.transformBinding, hc]
  · intro b cv hc hm
    simp [SparqlClient.transformBinding, hc, hm]
  · intro b cv g1 g2 hc hm hz
    rcases hz with h | h | h | h
    · cases hg2 : parseFloat g2 with
      | none => simp [SparqlClient.transformBinding, hc, hm, h, hg2]
      | some la => simp [SparqlClient.transformBinding, hc, hm, h, hg2]
    · cases hg1 : parseFloat g1 with
      | none => simp [SparqlClient.transformBinding, hc, hm, h, hg1]
      | some lo => simp [SparqlClient.transformBinding, hc, hm, h, hg1]
    · cases hg2 : parseFloat g2 with
      | none => simp [SparqlClient.transformBinding, hc, hm, h, hg2]
      | some la => simp [SparqlClient.transformBinding, hc, hm, h, hg2]
    · cases hg1 : parseFloat g1 with
      | none => simp [SparqlClient.transformBinding, hc, hm, h, hg1]
      | some lo => simp [SparqlClient.transformBinding, hc, hm, h, hg1]

/-- Witness for the amended C2: the spec's round-trip example
`Point(23.5 42.1)` yields longitude 23.5 and latitude 42.1. -/
theorem coordinate_normalization_amended_witness :
    (SparqlClient.transformBinding
      { item := "http://www.wikidata.org/entity/Q1",
        coord := some "Point(23.5 42.1)" }).location =
      some { latitude := mkRat 421 10, longitude := mkRat 235 10 } :=
  coordinate_normalization_amended.1 _ "Point(23.5 42.1)" "23.5" "42.1"
    (mkRat 235 10) (mkRat 421 10) rfl (by decide) (by decide) (by decide)
    (by decide) (by decide)

/-! ## Theorems: the query builder -/

theorem isPrefixOf_eq_true_iff (l₁ l₂ : List Char) :
    l₁.isPrefixOf l₂ = true ↔ l₁ <+: l₂ := List.isPrefixOf_iff_prefix

theorem listInfixB_iff (pat l : List Char) :
    listInfixB pat l = true ↔ pat <:+: l := by
  induction l with
  | nil => simp [listInfixB, List.isEmpty_iff]
  | cons c cs ih =>
    rw [listInfixB, Bool.or_eq_true, isPrefixOf_eq_true_iff, ih,
      List.infix_cons_iff]

theorem infix_append_left {α : Type} (s : List α) {l t : List α}
    (h : l <:+: t) : l <:+: s ++ t := by
  obtain ⟨u, v, rfl⟩ := h
  exact ⟨s ++ u, v, by simp⟩

theorem infix_self_append {α : Type} (l rest : List α) : l <:+: l ++ rest :=
  ⟨[], rest, by simp⟩

set_option maxRecDepth 20000

/-- C3 (counterexample).  A filter specification with `minCapacity` (resp.
`minSurfaceArea`) set to the numeric value `0` produces a query containing
NO capacity (resp. surface-area) lower-bound clause, contrary to the claim
that any set value, including 0, yields the clause: `if (minCapacity)` is
false at `0`. -/
theorem numeric_filter_zero_counterexample :
    ¬ strContains
        (SparqlClient.buildWaterFeaturesQuery { minCapacity := some 0 })
        "FILTER(?capacity >=" ∧
    ¬ strContains
        (SparqlClient.buildWaterFeaturesQuery { minSurfaceArea := some 0 })
        "FILTER(?surfaceArea >=" := by
  constructor
  · rw [strContains, ← listInfixB_iff]
    decide
  · rw [strContains, ← listInfixB_iff]
    decide

/-- C3 (amended).  Numeric lower-bound filters: a set NONZERO
`minCapacity`/`minSurfaceArea` puts into the query text the two-line clause
made of the (non-OPTIONAL) attribute existence constraint and the
`FILTER(attr >= bound)` comparison, for any other filter settings; a value
of exactly `0` is indistinguishable from unset (the query is identical to
the one built with the filter absent); and with the filters unset the
default query contains no capacity or surface-area comparison clause. -/
theorem numeric_filter_amended :
    (∀ (p : SparqlClient.QueryParams) (c : Int),
      p.minCapacity = some c → c ≠ 0 →
      strContains (SparqlClient.buildWaterFeaturesQuery p)
        (SparqlClient.capacityClause c)) ∧
    (∀ (p : SparqlClient.QueryParams) (c : Int),
      p.minSurfaceArea = some c → c ≠ 0 →
      strContains (SparqlClient.buildWaterFeaturesQuery p)
        (SparqlClient.surfaceAreaClause c)) ∧
    (∀ p : SparqlClient.QueryParams, p.minCapacity = some 0 →
      SparqlClient.buildWaterFeaturesQuery p =
        SparqlClient.buildWaterFeaturesQuery { p with minCapacity := none }) ∧
    (∀ p : SparqlClient.QueryParams, p.minSurfaceArea = some 0 →
      SparqlClient.buildWaterFeaturesQuery p =
        SparqlClient.buildWaterFeaturesQuery { p with minSurfaceArea := none }) ∧
    (¬ strContains (SparqlClient.buildWaterFeaturesQuery {})
        "FILTER(?capacity >=" ∧
     ¬ strContains (SparqlClient.buildWaterFeaturesQuery {})
        "FILTER(?surfaceArea >=") := by
  refine ⟨?_, ?_, ?_, ?_, ?_, ?_⟩
  · intro p c h1 h2
    unfold strContains SparqlClient.buildWaterFeaturesQuery
    simp only [SparqlClient.capacityFilterStr, h1, if_neg h2,
      String.data_append, List.append_assoc]
    apply infix_append_left
    apply infix_append_left
    apply infix_append_left
    apply infix_append_left
    apply infix_append_left
    apply infix_append_left
    exact infix_self_append _ _
  · intro p c h1 h2
    unfold strContains SparqlClient.buildWaterFeaturesQuery
    simp only [SparqlClient.surfaceAreaFilterStr, h1, if_neg h2,
      String.data_append, List.append_assoc]
    apply infix_append_left
    apply infix_append_left
    apply infix_append_left
    apply infix_append_left
    apply infix_append_left
    apply infix_append_left
    apply infix_append_left
    apply infix_append_left
    exact infix_self_append _ _
  · intro p h
    obtain ⟨ty, re, mc, msa, sb, so, li, off⟩ := p
    simp only at h
    subst h
    simp [SparqlClient.buildWaterFeaturesQuery, SparqlClient.typeFilterStr,
      SparqlClient.regionFilterStr, SparqlClient.capacityFilterStr,
      SparqlClient.surfaceAreaFilterStr, SparqlClient.sortFieldStr]
  · intro p h
    obtain ⟨ty, re, mc, msa, sb, so, li, off⟩ := p
    simp only at h
    subst h
    simp [SparqlClient.buildWaterFeaturesQuery, SparqlClient.typeFilterStr,
      SparqlClient.regionFilterStr, SparqlClient.capacityFilterStr,
      SparqlClient.surfaceAreaFilterStr, SparqlClient.sortFieldStr]
  · rw [strContains, ← listInfixB_iff]
    decide
  · rw [strContains, ← listInfixB_iff]
    decide

/-- Witness for the amended C3: `minCapacity = 500` puts the capacity
existence constraint and the `>= 500` comparison into the query. -/
theorem numeric_filter_amended_witness :
    strContains
      (SparqlClient.buildWaterFeaturesQuery { minCapacity := some 500 })
      (SparqlClient.capacityClause 500) :=
  numeric_filter_amended.1 { minCapacity := some 500 } 500 rfl (by decide)

/-! ## Theorems: the retrieval orchestrator -/

namespace SparqlClient

theorem all_key_inj {t t' : String} (h : t ≠ t') :
    ("ALL_" ++ t : String) ≠ ("ALL_" ++ t') := by
  intro hc
  apply h
  apply String.ext
  have hd := congrArg String.data hc
  simp only [String.data_append] at hd
  exact List.append_cancel_left hd

theorem findInTypeCaches_hit (ts : List String) (c : Cache) (now : Int)
    (id : String) (hpw : ts.Pairwise (· ≠ ·))
    (hhit : ∃ t ∈ ts, typeCacheHit c now id ("ALL_" ++ t)) :
    ∃ f c₂, findInTypeCaches ts c now id = (some f, c₂) ∧ f.id = id := by
  induction ts generalizing c with
  | nil =>
    obtain ⟨t, ht, _⟩ := hhit
    cases ht
  | cons t rest ih =>
    obtain ⟨hhd, htlpw⟩ := List.pairwise_cons.mp hpw
    rcases hhit with ⟨t₀, ht₀, hhit₀⟩
    rcases List.mem_cons.mp ht₀ with rfl | htail₀
    · -- the hit is under the head key
      obtain ⟨e, fs, f, hfe, hexp, hdata, hmem, hid⟩ := hhit₀
      have hget2 : CacheManager.get c now ("ALL_" ++ t₀) = (some e.data, c) := by
        unfold CacheManager.get
        rw [hfe]
        simp [hexp]
      have hsome : (fs.find? fun f => f.id == id).isSome :=
        List.find?_isSome.mpr ⟨f, hmem, by simp [hid]⟩
      obtain ⟨f₀, hf₀⟩ := Option.isSome_iff_exists.mp hsome
      refine ⟨f₀, c, ?_, ?_⟩
      · simp only [findInTypeCaches]
        rw [hget2, hdata]
        simp [hf₀]
      · have := List.find?_some hf₀
        simpa using this
    · -- the hit is under a later key; the head scan may or may not match
      rcases hget : CacheManager.get c now ("ALL_" ++ t) with ⟨v, c'⟩
      have hc' : c' = (CacheManager.get c now ("ALL_" ++ t)).2 := by rw [hget]
      have htail' : ∃ t' ∈ rest, typeCacheHit c' now id ("ALL_" ++ t') := by
        obtain ⟨e, fs, f, hfe, hexp, hdata, hmem, hid⟩ := hhit₀
        refine ⟨t₀, htail₀, e, fs, f, ?_, hexp, hdata, hmem, hid⟩
        rw [hc', CacheManager.get_snd_frame]
        · exact hfe
        · exact all_key_inj (Ne.symm (hhd t₀ htail₀))
      obtain ⟨f₂, c₂, heq, hid₂⟩ := ih c' htlpw htail'
      simp only [findInTypeCaches]
      rw [hget]
      cases v with
      | none => exact ⟨f₂, c₂, by simpa using heq, hid₂⟩
      | some val =>
        cases val with
        | features fs =>
          cases hfind : fs.find? (fun f => f.id == id) with
          | none => exact ⟨f₂, c₂, by simp [hfind, heq], hid₂⟩
          | some f₀ =>
            refine ⟨f₀, c', by simp [hfind], ?_⟩
            have := List.find?_some hfind
            simpa using this
        | raw r => exact ⟨f₂, c₂, by simpa using heq, hid₂⟩
        | feature f' => exact ⟨f₂, c₂, by simpa using heq, hid₂⟩

theorem findInTypeCaches_nohit (ts : List String) (c : Cache) (now : Int)
    (id : String) (hpw : ts.Pairwise (· ≠ ·))
    (hno : ∀ t ∈ ts, typeCacheNoHit c now id ("ALL_" ++ t)) :
    ∃ c₂, findInTypeCaches ts c now id = (none, c₂) ∧
      ∀ k, CacheManager.findEntry c k = none →
        CacheManager.findEntry c₂ k = none := by
  induction ts generalizing c with
  | nil => exact ⟨c, rfl, fun _ h => h⟩
  | cons t rest ih =>
    obtain ⟨hhd, htlpw⟩ := List.pairwise_cons.mp hpw
    rcases hget : CacheManager.get c now ("ALL_" ++ t) with ⟨v, c'⟩
    have hc' : c' = (CacheManager.get c now ("ALL_" ++ t)).2 := by rw [hget]
    have hno' : ∀ t' ∈ rest, typeCacheNoHit c' now id ("ALL_" ++ t') := by
      intro t' ht' e he
      apply hno t' (List.mem_cons_of_mem _ ht') e
      rw [← he, hc', CacheManager.get_snd_frame]
      exact all_key_inj (Ne.symm (hhd t' ht'))
    have hmono' : ∀ k, CacheManager.findEntry c k = none →
        CacheManager.findEntry c' k = none := by
      intro k hk
      rw [hc']
      exact CacheManager.get_none_mono c now _ k hk
    obtain ⟨c₂, heq, hm₂⟩ := ih c' htlpw hno'
    have hcomp : ∀ k, CacheManager.findEntry c k = none →
        CacheManager.findEntry c₂ k = none := fun k hk => hm₂ k (hmono' k hk)
    have hv1 : v = (CacheManager.get c now ("ALL_" ++ t)).1 := by rw [hget]
    cases v with
    | none =>
      refine ⟨c₂, ?_, hcomp⟩
      simp only [findInTypeCaches]
      rw [hget]
      simpa using heq
    | some val =>
      rw [CacheManager.get_fst_eq] at hv1
      cases hfe : CacheManager.findEntry c ("ALL_" ++ t) with
      | none => rw [hfe] at hv1; cases hv1
      | some e =>
        rw [hfe] at hv1
        by_cases hexp : now > e.expiryTime
        · simp [hexp] at hv1
        · simp [hexp] at hv1
          have hval : val = e.data := hv1
          rcases hno t (List.mem_cons_self t rest) e hfe with hbad | hnomatch
          · exact absurd hbad hexp
          · cases val with
            | features fs =>
              have hfind : fs.find? (fun f => f.id == id) = none := by
                rw [List.find?_eq_none]
                intro f hf
                have hne := hnomatch fs hval.symm f hf
                simp [hne]
              refine ⟨c₂, ?_, hcomp⟩
              simp only [findInTypeCaches]
              rw [hget]
              simp [hfind, heq]
            | raw r =>
              refine ⟨c₂, ?_, hcomp⟩
              simp only [findInTypeCaches]
              rw [hget]
              simpa using heq
            | feature f =>
              refine ⟨c₂, ?_, hcomp⟩
              simp only [findInTypeCaches]
              rw [hget]
              simpa using heq

end SparqlClient

/-- C7.  `getWaterFeatureById`: (hit) whenever some per-category cache holds
a live list containing a record with the requested identifier, the call
returns such a record without invoking the transport (flag `false`);
(miss) when no per-category cache yields a match and the fingerprint cache
has no entry for the single-entity query, the call invokes the transport
(flag `true`), returns the absent indicator when the transport returns no
rows, and otherwise returns the first normalized record and caches it under
`FEATURE_<id>` with the default TTL. -/
theorem getWaterFeatureById_spec :
    (∀ (transport : String → Except String SparqlResult) (c : Cache)
       (now dttl : Int) (id : String),
      (∃ t ∈ SparqlClient.waterFeatureTypes,
        SparqlClient.typeCacheHit c now id ("ALL_" ++ t)) →
      ∃ f c', SparqlClient.getWaterFeatureById transport c now dttl id =
          (.ok (some f), c', false) ∧ f.id = id) ∧
    (∀ (transport : String → Except String SparqlResult) (c : Cache)
       (now dttl : Int) (id : String) (r : SparqlResult),
      (∀ t ∈ SparqlClient.waterFeatureTypes,
        SparqlClient.typeCacheNoHit c now id ("ALL_" ++ t)) →
      CacheManager.findEntry c
        (CacheManager.hashString (SparqlClient.buildWaterFeatureByIdQuery id)) =
          none →
      transport (SparqlClient.buildWaterFeatureByIdQuery id) = .ok r →
      ((SparqlClient.transformResults r = [] →
        (SparqlClient.getWaterFeatureById transport c now dttl id).1 = .ok none ∧
        (SparqlClient.getWaterFeatureById transport c now dttl id).2.2 = true) ∧
       (∀ f rest, SparqlClient.transformResults r = f :: rest →
        (SparqlClient.getWaterFeatureById transport c now dttl id).1 =
          .ok (some f) ∧
        CacheManager.findEntry
          ((SparqlClient.getWaterFeatureById transport c now dttl id).2.1)
          ("FEATURE_" ++ id) = some ⟨.feature f, now + dttl⟩ ∧
        (SparqlClient.getWaterFeatureById transport c now dttl id).2.2 =
          true))) := by
  constructor
  · intro transport c now dttl id hhit
    obtain ⟨f, c₂, heq, hid⟩ :=
      SparqlClient.findInTypeCaches_hit SparqlClient.waterFeatureTypes c now id
        (by decide) hhit
    refine ⟨f, c₂, ?_, hid⟩
    unfold SparqlClient.getWaterFeatureById
    rw [heq]
  · intro transport c now dttl id r hno hfind htr
    obtain ⟨c₂, heq, hmono⟩ :=
      SparqlClient.findInTypeCaches_nohit SparqlClient.waterFeatureTypes c now id
        (by decide) hno
    have hk : CacheManager.findEntry c₂
        (CacheManager.hashString (SparqlClient.buildWaterFeatureByIdQuery id)) =
          none := hmono _ hfind
    have hget2 : CacheManager.get c₂ now
        (CacheManager.hashString (SparqlClient.buildWaterFeatureByIdQuery id)) =
          (none, c₂) := by
      unfold CacheManager.get
      rw [hk]
    have hq : SparqlClient.query transport c₂ now dttl
        (SparqlClient.buildWaterFeatureByIdQuery id) =
        (.ok (.raw r),
         CacheManager.cacheQuery c₂ (SparqlClient.buildWaterFeatureByIdQuery id)
           (.raw r) now dttl,
         true) := by
      unfold SparqlClient.query CacheManager.getCachedQuery
      rw [hget2, htr]
    constructor
    · intro hempty
      constructor
      · unfold SparqlClient.getWaterFeatureById
        rw [heq]
        dsimp only
        rw [hq]
        simp [SparqlClient.transformResultsDyn, hempty]
      · unfold SparqlClient.getWaterFeatureById
        rw [heq]
        dsimp only
        rw [hq]
        simp [SparqlClient.transformResultsDyn, hempty]
    · intro f rest hcons
      refine ⟨?_, ?_, ?_⟩
      · unfold SparqlClient.getWaterFeatureById
        rw [heq]
        dsimp only
        rw [hq]
        simp [SparqlClient.transformResultsDyn, hcons]
      · unfold SparqlClient.getWaterFeatureById
        rw [heq]
        dsimp only
        rw [hq]
        simp [SparqlClient.transformResultsDyn, hcons, CacheManager.set,
          CacheManager.findEntry_setPairs_self]
      · unfold SparqlClient.getWaterFeatureById
        rw [heq]
        dsimp only
        rw [hq]
        simp [SparqlClient.transformResultsDyn, hcons]

/-- Witness for C7: (hit) with `ALL_LAKE` holding a live singleton list for
`"Q1"`, the lookup never touches the (always failing) transport; (miss) with
an empty store and a transport returning zero rows, the lookup returns the
absent indicator after invoking the transport. -/
theorem getWaterFeatureById_spec_witness :
    (SparqlClient.getWaterFeatureById (fun _ => .error "down")
      [("ALL_LAKE",
        ⟨.features [⟨"Q1", "Iskar", .LAKE, none, none, none, none, none, none,
          none, "https://www.wikidata.org/wiki/Q1", none⟩], 10⟩)]
      0 5 "Q1").2.2 = false ∧
    (SparqlClient.getWaterFeatureById (fun _ => .ok ⟨none⟩) [] 0 5 "Q1").1 =
      .ok none := by
  constructor
  · obtain ⟨f, c', heqn, _⟩ :=
      getWaterFeatureById_spec.1 (fun _ => .error "down")
        [("ALL_LAKE",
          ⟨.features [⟨"Q1", "Iskar", .LAKE, none, none, none, none, none, none,
            none, "https://www.wikidata.org/wiki/Q1", none⟩], 10⟩)]
        0 5 "Q1"
        ⟨"LAKE", by decide,
          ⟨.features [⟨"Q1", "Iskar", .LAKE, none, none, none, none, none, none,
            none, "https://www.wikidata.org/wiki/Q1", none⟩], 10⟩,
          [⟨"Q1", "Iskar", .LAKE, none, none, none, none, none, none,
            none, "https://www.wikidata.org/wiki/Q1", none⟩],
          ⟨"Q1", "Iskar", .LAKE, none, none, none, none, none, none,
            none, "https://www.wikidata.org/wiki/Q1", none⟩,
          rfl, by decide, rfl, by simp, rfl⟩
    rw [heqn]
  · exact (((getWaterFeatureById_spec.2 (fun _ => .ok ⟨none⟩) [] 0 5 "Q1" ⟨none⟩
      (by intro t ht e he; simp [CacheManager.findEntry] at he)
      rfl rfl).1) rfl).1

/-! ## Theorems: cache preloading -/

namespace SparqlClient

set_option maxRecDepth 1000000

theorem hash_preQ_LAKE :
    CacheManager.hashString
      (buildWaterFeaturesQuery { type := some "LAKE", limit := queryLimit }) =
      "786451330" := by decide

theorem hash_preQ_DAM :
    CacheManager.hashString
      (buildWaterFeaturesQuery { type := some "DAM", limit := queryLimit }) =
      "-1878654753" := by decide

theorem hash_preQ_RESERVOIR :
    CacheManager.hashString
      (buildWaterFeaturesQuery { type := some "RESERVOIR", limit := queryLimit }) =
      "-2001277854" := by decide

theorem hash_preQ_RIVER :
    CacheManager.hashString
      (buildWaterFeaturesQuery { type := some "RIVER", limit := queryLimit }) =
      "237088294" := by decide

theorem preloadStep_frame (transport : String → Except String SparqlResult)
    (now dttl : Int) (c : Cache) (t k : String)
    (h1 : k ≠ CacheManager.hashString
      (buildWaterFeaturesQuery { type := some t, limit := queryLimit }))
    (h2 : k ≠ "ALL_" ++ t) :
    CacheManager.findEntry (preloadStep transport now dttl c t) k =
      CacheManager.findEntry c k := by
  unfold preloadStep query CacheManager.getCachedQuery
  rcases hget : CacheManager.get c now
    (CacheManager.hashString
      (buildWaterFeaturesQuery { type := some t, limit := queryLimit }))
    with ⟨v, c'⟩
  have hc' : CacheManager.findEntry c' k = CacheManager.findEntry c k := by
    have : c' = (CacheManager.get c now
        (CacheManager.hashString
          (buildWaterFeaturesQuery { type := some t, limit := queryLimit }))).2 := by
      rw [hget]
    rw [this]
    exact CacheManager.get_snd_frame _ _ _ _ h1
  dsimp only
  rw [hget]
  cases v with
  | some val =>
    dsimp only
    rw [CacheManager.set, CacheManager.findEntry_setPairs_ne _ _ _ _ h2]
    exact hc'
  | none =>
    dsimp only
    cases transport
      (buildWaterFeaturesQuery { type := some t, limit := queryLimit }) with
    | error e => exact hc'
    | ok r =>
      dsimp only
      rw [CacheManager.set, CacheManager.findEntry_setPairs_ne _ _ _ _ h2,
        CacheManager.cacheQuery, CacheManager.set,
        CacheManager.findEntry_setPairs_ne _ _ _ _ h1]
      exact hc'

theorem preloadStep_store (transport : String → Except String SparqlResult)
    (now dttl : Int) (c : Cache) (t : String) (r : SparqlResult)
    (hmiss : CacheManager.findEntry c
      (CacheManager.hashString
        (buildWaterFeaturesQuery { type := some t, limit := queryLimit })) = none)
    (htr : transport
      (buildWaterFeaturesQuery { type := some t, limit := queryLimit }) = .ok r) :
    CacheManager.findEntry (preloadStep transport now dttl c t) ("ALL_" ++ t) =
      some ⟨.features (transformResults r), now + 43200000⟩ := by
  unfold preloadStep query CacheManager.getCachedQuery
  have hget : CacheManager.get c now
      (CacheManager.hashString
        (buildWaterFeaturesQuery { type := some t, limit := queryLimit })) =
      (none, c) := by
    unfold CacheManager.get
    rw [hmiss]
  dsimp only
  rw [hget]
  dsimp only
  rw [htr]
  dsimp only [transformResultsDyn]
  rw [CacheManager.set, CacheManager.findEntry_setPairs_self]

end SparqlClient

/-- C8.  Preload failure isolation and per-category storage: for every
transport behaviour and starting from an empty store, each category whose
query the transport answers successfully ends up stored, normalized, under
its fixed `ALL_<category>` key with expiry `now + 12h` — regardless of what
the transport does for the other categories (their failures are caught and
skipped by `preloadCache`, which is a total function and never fails). -/
theorem preload_isolated_store
    (transport : String → Except String SparqlResult) (now dttl : Int) :
    ∀ t ∈ SparqlClient.waterFeatureTypes, ∀ r : SparqlResult,
      transport (SparqlClient.buildWaterFeaturesQuery
        { type := some t, limit := SparqlClient.queryLimit }) = .ok r →
      CacheManager.findEntry (SparqlClient.preloadCache transport [] now dttl)
        ("ALL_" ++ t) =
        some ⟨.features (SparqlClient.transformResults r), now + 43200000⟩ := by
  intro t ht r htr
  have hfold : SparqlClient.preloadCache transport [] now dttl =
      SparqlClient.preloadStep transport now dttl
        (SparqlClient.preloadStep transport now dttl
          (SparqlClient.preloadStep transport now dttl
            (SparqlClient.preloadStep transport now dttl [] "LAKE") "DAM")
          "RESERVOIR") "RIVER" := rfl
  rw [hfold]
  simp only [SparqlClient.waterFeatureTypes, List.mem_cons,
    List.not_mem_nil, or_false] at ht
  rcases ht with rfl | rfl | rfl | rfl
  · rw [SparqlClient.preloadStep_frame _ _ _ _ _ _
        (by rw [SparqlClient.hash_preQ_RIVER]; decide) (by decide),
      SparqlClient.preloadStep_frame _ _ _ _ _ _
        (by rw [SparqlClient.hash_preQ_RESERVOIR]; decide) (by decide),
      SparqlClient.preloadStep_frame _ _ _ _ _ _
        (by rw [SparqlClient.hash_preQ_DAM]; decide) (by decide)]
    exact SparqlClient.preloadStep_store transport now dttl [] "LAKE" r rfl htr
  · rw [SparqlClient.preloadStep_frame _ _ _ _ _ _
        (by rw [SparqlClient.hash_preQ_RIVER]; decide) (by decide),
      SparqlClient.preloadStep_frame _ _ _ _ _ _
        (by rw [SparqlClient.hash_preQ_RESERVOIR]; decide) (by decide)]
    apply SparqlClient.preloadStep_store transport now dttl _ "DAM" r _ htr
    rw [SparqlClient.preloadStep_frame _ _ _ _ _ _
        (by rw [SparqlClient.hash_preQ_DAM, SparqlClient.hash_preQ_LAKE]; decide)
        (by rw [SparqlClient.hash_preQ_DAM]; decide)]
    rfl
  · rw [SparqlClient.preloadStep_frame _ _ _ _ _ _
        (by rw [SparqlClient.hash_preQ_RIVER]; decide) (by decide)]
    apply SparqlClient.preloadStep_store transport now dttl _ "RESERVOIR" r _ htr
    rw [SparqlClient.preloadStep_frame _ _ _ _ _ _
        (by rw [SparqlClient.hash_preQ_RESERVOIR, SparqlClient.hash_preQ_DAM]; decide)
        (by rw [SparqlClient.hash_preQ_RESERVOIR]; decide),
      SparqlClient.preloadStep_frame _ _ _ _ _ _
        (by rw [SparqlClient.hash_preQ_RESERVOIR, SparqlClient.hash_preQ_LAKE]; decide)
        (by rw [SparqlClient.hash_preQ_RESERVOIR]; decide)]
    rfl
  · apply SparqlClient.preloadStep_store transport now dttl _ "RIVER" r _ htr
    rw [SparqlClient.preloadStep_frame _ _ _ _ _ _
        (by rw [SparqlClient.hash_preQ_RIVER, SparqlClient.hash_preQ_RESERVOIR]; decide)
        (by rw [SparqlClient.hash_preQ_RIVER]; decide),
      SparqlClient.preloadStep_frame _ _ _ _ _ _
        (by rw [SparqlClient.hash_preQ_RIVER, SparqlClient.hash_preQ_DAM]; decide)
        (by rw [SparqlClient.hash_preQ_RIVER]; decide),
      SparqlClient.preloadStep_frame _ _ _ _ _ _
        (by rw [SparqlClient.hash_preQ_RIVER, SparqlClient.hash_preQ_LAKE]; decide)
        (by rw [SparqlClient.hash_preQ_RIVER]; decide)]
    rfl

/-- Witness for C8: a transport that answers only the DAM query and fails for
every other category still leaves the normalized DAM list stored under
`ALL_DAM` with the 12-hour expiry. -/
theorem preload_isolated_store_witness :
    CacheManager.findEntry
      (SparqlClient.preloadCache
        (fun q =>
          if q = SparqlClient.buildWaterFeaturesQuery
              { type := some "DAM", limit := SparqlClient.queryLimit }
          then .ok ⟨none⟩ else .error "boom")
        [] 0 1000)
      "ALL_DAM" = some ⟨.features [], 43200000⟩ := by
  have h := preload_isolated_store
    (fun q =>
      if q = SparqlClient.buildWaterFeaturesQuery
          { type := some "DAM", limit := SparqlClient.queryLimit }
      then .ok ⟨none⟩ else .error "boom")
    0 1000 "DAM" (by decide) ⟨none⟩ (by simp)
  simpa using h
